import Mathlib

/-!
Formal model of the media server chunk-delivery core.

This file gives a shallow embedding of three modules of the repository:

* the chunk registry and its cleanup operation (tracker module,
  route handler for cleanup_peer);
* the concurrency-controlled torrent chunk extraction pipeline
  (parallel tracker module: extractChunkFromTorrent and
  extractChunkWithConcurrencyControl);
* the worker-pool streaming engine (ParallelStreamingEngine:
  worker lifecycle, task queue, delivery buffer, streaming stats).

Pure functions are translated directly; the stateful scheduler is
embedded as explicit state passing over an EngineState record, and the
interleaving behaviour of the extraction cap is embedded as a step
relation.  Theorems about the claims follow after the definitions.
-/

/- ===================== Registry store (cleanup_peer) ===================== -/

/-- The chunk registry: movie name, then chunk index, then the list of
peer ids registered for that chunk.  JS shape:
chunkRegistry = \x7b movie: \x7b chunkIndex: [peerId, ...] \x7d \x7d. -/
abbrev Registry : Type := List (String × List (ℕ × List String))

/-- Inner part of the register_chunk handler: create the chunk entry of
one movie when absent, then push the peer id when it is not already
present. -/
def registerChunkInMovie (chunkIndex : ℕ) (peerId : String) :
    List (ℕ × List String) → List (ℕ × List String)
  | [] => [(chunkIndex, [peerId])]
  | (ci, peers) :: rest =>
    if ci = chunkIndex then
      (ci, if peerId ∈ peers then peers else peers ++ [peerId]) :: rest
    else
      (ci, peers) :: registerChunkInMovie chunkIndex peerId rest

/-- register_chunk handler body: create the movie and chunk entries when
absent, then push the peer id when it is not already present. -/
def registerChunk (movie : String) (chunkIndex : ℕ) (peerId : String) :
    Registry → Registry
  | [] => [(movie, [(chunkIndex, [peerId])])]
  | (m, chunks) :: rest =>
    if m = movie then
      (m, registerChunkInMovie chunkIndex peerId chunks) :: rest
    else
      (m, chunks) :: registerChunk movie chunkIndex peerId rest

/-- cleanup_peer handler body: for every movie and chunk entry, remove the
first occurrence of the peer id (indexOf followed by splice), delete the
chunk entries whose peer list became empty, then delete the movies whose
chunk table became empty. -/
def cleanup_peer (peerId : String) (reg : Registry) : Registry :=
  (reg.map (fun me =>
      (me.1, (me.2.map (fun ce => (ce.1, ce.2.erase peerId))).filter
        (fun ce => !ce.2.isEmpty)))).filter
    (fun me => !me.2.isEmpty)

/-- Data-model invariant of the registry: each per-chunk peer list is
duplicate free (registration pushes a peer only when it is not already
present). -/
abbrev NodupPeers (reg : Registry) : Prop :=
  ∀ me ∈ reg, ∀ ce ∈ me.2, List.Nodup ce.2

/-- The peer id appears in no claim set of the registry. -/
abbrev NoClaim (peerId : String) (reg : Registry) : Prop :=
  ∀ me ∈ reg, ∀ ce ∈ me.2, peerId ∉ ce.2

/-- The registry carries no empty claim set and no empty movie entry. -/
abbrev Pruned (reg : Registry) : Prop :=
  (∀ me ∈ reg, ∀ ce ∈ me.2, ce.2 ≠ []) ∧ (∀ me ∈ reg, me.2 ≠ [])

/- ============== Extraction pipeline (parallel tracker) ============== -/

/-- chunkSize constant of the extraction pipeline: 2 * 1024 * 1024 bytes. -/
def chunkSizeBytes : ℕ := 2 * 1024 * 1024

/-- maxRetries constant of attemptExtraction. -/
def maxRetries : ℕ := 3

/-- Per-attempt stream timeout in milliseconds (15 second timeout). -/
def perAttemptTimeoutMs : ℕ := 15000

/-- Trace of one run of the attemptExtraction retry loop. -/
structure AttemptRun where
  /-- Number of read attempts performed (createReadStream invocations). -/
  attempts : ℕ
  /-- Backoff sleeps in milliseconds, one before each retry. -/
  backoffDelays : List ℕ
  /-- Whether the run ended in a successful read. -/
  succeeded : Bool
deriving DecidableEq, Repr

/-- The attemptExtraction loop.  attemptFails n says whether the attempt
made while retryCount = n hits a timeout, a zero-byte result or a stream
error.  On a failed attempt with retryCount < maxRetries the code
increments retryCount and schedules the next attempt after
1000 * retryCount milliseconds (with the incremented counter); when the
budget is exhausted the run ends unsuccessfully.  The fuel argument only
makes the recursion structural: the loop is entered with
fuel = maxRetries, fuel stays equal to maxRetries - retryCount on every
recursive call, and the retryCount < maxRetries guard is checked first,
so the fuel = 0 fallback (returning the same exhausted run) is never
reached. -/
def runAttempts (attemptFails : ℕ → Bool) : ℕ → ℕ → AttemptRun
  | fuel, retryCount =>
    if attemptFails retryCount = false then
      { attempts := 1, backoffDelays := [], succeeded := true }
    else if retryCount < maxRetries then
      match fuel with
      | 0 => { attempts := 1, backoffDelays := [], succeeded := false }
      | fuel' + 1 =>
        let rest := runAttempts attemptFails fuel' (retryCount + 1)
        { attempts := rest.attempts + 1,
          backoffDelays := 1000 * (retryCount + 1) :: rest.backoffDelays,
          succeeded := rest.succeeded }
    else
      { attempts := 1, backoffDelays := [], succeeded := false }

/-- Result classification of extractChunkFromTorrent. -/
inductive ExtractOutcome where
  /-- A read attempt succeeded; the bytes are concatenated and served. -/
  | success
  /-- The computed offset was at or past the end of the file: the
  function throws before any read stream is created. -/
  | outOfBounds
  /-- All attempts failed and the retry budget is exhausted. -/
  | exhaustedRetryable
deriving DecidableEq, Repr

/-- Observable result of one extractChunkFromTorrent call. -/
structure ExtractResult where
  /-- Byte range passed to createReadStream: none when the function
  throws before reading, some (offset, length) otherwise. -/
  readParams : Option (ℕ × ℕ)
  /-- Number of read attempts performed. -/
  attempts : ℕ
  /-- Backoff delays slept between attempts, in milliseconds. -/
  backoffDelays : List ℕ
  outcome : ExtractOutcome
deriving DecidableEq, Repr

/-- The error responses of the route all carry retry: true in their JSON
body (both the retry-exhaustion branches and the outer catch that
receives the out-of-bounds throw). -/
def errorRetryFlag : ExtractOutcome → Option Bool
  | .success => none
  | .outOfBounds => some true
  | .exhaustedRetryable => some true

/-- extractChunkFromTorrent: compute offset = chunkIndex * chunkSize and
length = min(chunkSize, fileLength - offset); throw when
offset >= fileLength (before any read attempt); otherwise run the
attemptExtraction loop starting at retryCount = 0. -/
def extractChunkFromTorrent (fileLength chunkIndex : ℕ)
    (attemptFails : ℕ → Bool) : ExtractResult :=
  let offset := chunkIndex * chunkSizeBytes
  if fileLength ≤ offset then
    { readParams := none, attempts := 0, backoffDelays := [], outcome := .outOfBounds }
  else
    let length := min chunkSizeBytes (fileLength - offset)
    let run := runAttempts attemptFails maxRetries 0
    { readParams := some (offset, length),
      attempts := run.attempts,
      backoffDelays := run.backoffDelays,
      outcome := if run.succeeded then .success else .exhaustedRetryable }

/-- Per-movie concurrent extraction cap (maxConcurrentExtractions). -/
def maxConcurrentExtractions : ℕ := 3

/-- Steps that mutate the per-movie active-extractions set.  The only
two mutation sites in extractChunkWithConcurrencyControl are:

* movieExtractions.add(chunkIndex), reached only straight after the
  while loop observed movieExtractions.size < maxConcurrentExtractions;
  there is no suspension point between that check and the add, so on the
  single-threaded event loop the guarded insert is atomic;
* movieExtractions.delete(chunkIndex) in the finally block. -/
inductive ExtractionStep : Finset ℕ → Finset ℕ → Prop where
  /-- A caller leaves the cap-wait loop (set size below the cap) and adds
  its chunk index. -/
  | enter (c : ℕ) (s : Finset ℕ) (h : s.card < maxConcurrentExtractions) :
      ExtractionStep s (insert c s)
  /-- A finished extraction removes its chunk index in the finally block. -/
  | leave (c : ℕ) (s : Finset ℕ) : ExtractionStep s (s.erase c)

/-- Reachable states of the active-extractions set of one movie,
starting from the freshly created empty set. -/
inductive ExtractionReachable : Finset ℕ → Prop where
  | init : ExtractionReachable ∅
  | step {s t : Finset ℕ} : ExtractionReachable s → ExtractionStep s t →
      ExtractionReachable t

/-- Observable actions of one extractChunkWithConcurrencyControl call. -/
inductive ExtractAction where
  /-- await chunkExtractionQueue.get(chunkKey). -/
  | awaitExisting
  /-- res.sendFile of the cached chunk file after the awaited task. -/
  | serveCachedFile
  /-- The awaited task rejected; the error is rethrown to the caller. -/
  | propagateError
  /-- One 500 ms sleep inside the concurrency-cap wait loop. -/
  | waitForSlot
  /-- extractChunkFromTorrent is invoked: an underlying extraction starts. -/
  | startExtraction
deriving DecidableEq, Repr

/-- Environment of one extractChunkWithConcurrencyControl call: whether
chunkExtractionQueue already holds a task for the key, how that task
settles, whether the saved chunk file exists afterwards, and how many
rounds the cap-wait loop runs. -/
structure ExtractEnv where
  taskExists : Bool
  awaitedOk : Bool
  cachedFileExists : Bool
  capBusyRounds : ℕ
deriving DecidableEq, Repr

/-- The cap-wait loop followed by the start of a fresh extraction
(the add to the active set, the extractChunkFromTorrent call and the
insertion into chunkExtractionQueue). -/
def proceedToExtraction (env : ExtractEnv) : List ExtractAction :=
  List.replicate env.capBusyRounds .waitForSlot ++ [.startExtraction]

/-- Control flow of extractChunkWithConcurrencyControl.  When a task for
the key exists the caller awaits it; a rejection is rethrown; after a
successful await the cached chunk file is served when it exists, and
otherwise the code falls through to the fresh-extraction path. -/
def extractChunkWithConcurrencyControl (env : ExtractEnv) : List ExtractAction :=
  if env.taskExists then
    if env.awaitedOk then
      if env.cachedFileExists then
        [.awaitExisting, .serveCachedFile]
      else
        .awaitExisting :: proceedToExtraction env
    else
      [.awaitExisting, .propagateError]
  else
    proceedToExtraction env

/- ============== Worker-pool streaming engine ============== -/

/-- Bytes of one chunk, as byte size plus the byte at each offset. -/
structure ChunkBytes where
  size : ℕ
  byteAt : ℕ → ℕ

/-- The pattern buffer built by the worker in downloadAndProcessChunk:
Buffer.alloc(1MB) with writeUInt32BE(chunkIndex, i) at every offset
i = 0, 4, 8, ...; byte j therefore holds the big-endian byte j % 4 of
the chunk index. -/
def mkChunkData (chunkIndex : ℕ) : ChunkBytes :=
  { size := 1024 * 1024,
    byteAt := fun j => chunkIndex / 2 ^ (8 * (3 - j % 4)) % 256 }

/-- downloadAndProcessChunk in the worker thread: after a simulated
delay it returns the pattern buffer, which depends only on the chunk
index (movieId and peerSources are unused in the buffer fill). -/
def downloadAndProcessChunk (movieId : String) (chunkIndex : ℕ)
    (peerSources : List String) : ChunkBytes :=
  mkChunkData chunkIndex

/-- The currentTask record of a busy worker (movieId, chunkIndex plus
the resolve/reject pair, identified here by taskId). -/
structure CurrentTask where
  movieId : String
  chunkIndex : ℕ
  taskId : ℕ
deriving DecidableEq, Repr

/-- A task parked in workerQueue. -/
structure QueuedTask where
  movieId : String
  chunkIndex : ℕ
  peerSources : List String
  taskId : ℕ
deriving DecidableEq, Repr

/-- One entry of this.workers. -/
structure WorkerInfo where
  busy : Bool
  currentTask : Option CurrentTask
deriving DecidableEq, Repr

/-- Events emitted by the engine that the claims observe. -/
inductive EngineEvent where
  | chunkProgress (movieId : String) (chunkIndex : ℕ) (progress : ℕ)
deriving DecidableEq, Repr

/-- Messages a worker thread posts to the scheduler. -/
inductive WorkerMsg where
  | chunkDownloaded (success : Bool) (movieId : String) (chunkIndex : ℕ)
      (data : ChunkBytes) (error : String)
  | progress (movieId : String) (chunkIndex : ℕ) (progress : ℕ)
  | error (error : String)

/-- State of one ParallelStreamingEngine.  resolvedTasks and
rejectedTasks record which task promises have settled and how;
pendingRespawns records the setTimeout handles created by
restartWorker as (delay in ms, worker slot index). -/
structure EngineState where
  maxWorkers : ℕ
  workers : List WorkerInfo
  workerQueue : List QueuedTask
  streamBuffer : List (String × List (Option ChunkBytes))
  downloadQueue : List (String × List ℕ)
  pendingRespawns : List (ℕ × ℕ)
  resolvedTasks : List ℕ
  rejectedTasks : List (ℕ × String)
  events : List EngineEvent

/-- JS Map.set: replace in place when the key is present, append
otherwise. -/
def mapSet {β : Type} (key : String) (v : β) :
    List (String × β) → List (String × β)
  | [] => [(key, v)]
  | (k, w) :: rest =>
    if k = key then (key, v) :: rest else (k, w) :: mapSet key v rest

/-- createWorker: install a fresh idle worker record in the slot. -/
def createWorker (workerId : ℕ) (s : EngineState) : EngineState :=
  { s with workers := s.workers.set workerId { busy := false, currentTask := none } }

/-- restartWorker: terminate the failed worker and schedule
createWorker(workerId) after 1000 ms.  The slot still holds the old
worker record until the timer fires, and the currentTask of that record
is neither cleared nor rejected here. -/
def restartWorker (workerId : ℕ) (s : EngineState) : EngineState :=
  { s with pendingRespawns := s.pendingRespawns ++ [(1000, workerId)] }

/-- The respawn timer created by restartWorker fires: the slot receives
a fresh idle worker. -/
def fireRespawn (workerId : ℕ) (s : EngineState) : EngineState :=
  createWorker workerId
    { s with pendingRespawns := s.pendingRespawns.erase (1000, workerId) }

/-- getAvailableWorker: this.workers.find(w => w && !w.busy), returned
here as the index of the first non-busy worker. -/
def findAvailableIdx : List WorkerInfo → Option ℕ
  | [] => none
  | w :: ws => if !w.busy then some 0 else (findAvailableIdx ws).map (· + 1)

/-- storeChunkData: write the bytes into the delivery-buffer slot at
chunkIndex when a buffer for the movie exists (writes past the
allocated length are not modeled; the claims concern in-range slots). -/
def storeChunkData (movieId : String) (chunkIndex : ℕ) (data : ChunkBytes)
    (s : EngineState) : EngineState :=
  match List.lookup movieId s.streamBuffer with
  | none => s
  | some buffer =>
    { s with streamBuffer :=
        mapSet movieId (buffer.set chunkIndex (some data)) s.streamBuffer }

/-- processWorkerQueue: when the queue is non-empty and an available
worker exists, shift the first queued task and assign it
(assignChunkToWorker sets busy and currentTask on the worker). -/
def processWorkerQueue (s : EngineState) : EngineState :=
  match s.workerQueue with
  | [] => s
  | q :: rest =>
    match findAvailableIdx s.workers with
    | none => s
    | some i =>
      { s with
          workers := s.workers.set i
            { busy := true,
              currentTask := some { movieId := q.movieId,
                                    chunkIndex := q.chunkIndex,
                                    taskId := q.taskId } },
          workerQueue := rest }

/-- handleWorkerMessage: ignore messages for workers without a current
task; on chunkDownloaded store the bytes (using the movieId and
chunkIndex of the message) and resolve, or reject on failure; on
progress emit chunkProgress; on error reject.  In every branch the
worker is then freed and processWorkerQueue runs. -/
def handleWorkerMessage (workerId : ℕ) (msg : WorkerMsg) (s : EngineState) :
    EngineState :=
  match s.workers[workerId]? with
  | none => s
  | some wi =>
    match wi.currentTask with
    | none => s
    | some t =>
      let s1 :=
        match msg with
        | .chunkDownloaded true movieId chunkIndex data _ =>
          let s' := storeChunkData movieId chunkIndex data s
          { s' with resolvedTasks := s'.resolvedTasks ++ [t.taskId] }
        | .chunkDownloaded false _ _ _ err =>
          { s with rejectedTasks := s.rejectedTasks ++ [(t.taskId, err)] }
        | .progress movieId chunkIndex p =>
          { s with events := s.events ++ [EngineEvent.chunkProgress movieId chunkIndex p] }
        | .error err =>
          { s with rejectedTasks := s.rejectedTasks ++ [(t.taskId, err)] }
      let s2 := { s1 with
        workers := s1.workers.set workerId { busy := false, currentTask := none } }
      processWorkerQueue s2

/-- handleWorkerTimeout applied to a worker record: when the record has
a current task, reject it and clear busy/currentTask on that record.
The function acts on the record the 30 s timer captured, which is not
necessarily the record currently sitting in the slot. -/
def handleWorkerTimeoutOn (wi : WorkerInfo) (s : EngineState) :
    WorkerInfo × EngineState :=
  match wi.currentTask with
  | some t =>
    ({ busy := false, currentTask := none },
     { s with rejectedTasks := s.rejectedTasks ++ [(t.taskId, "Worker timeout")] })
  | none => (wi, s)

/-- The 30 s task timer fires for the worker record currently in the
slot: apply handleWorkerTimeoutOn to it and write the record back.
Note that no queued task is pulled here. -/
def handleWorkerTimeout (workerId : ℕ) (s : EngineState) : EngineState :=
  match s.workers[workerId]? with
  | none => s
  | some wi =>
    let p := handleWorkerTimeoutOn wi s
    { p.2 with workers := p.2.workers.set workerId p.1 }

/-- downloadChunkParallel: assign to an available worker, otherwise
enqueue FIFO. -/
def downloadChunkParallel (movieId : String) (chunkIndex : ℕ)
    (peerSources : List String) (taskId : ℕ) (s : EngineState) : EngineState :=
  match findAvailableIdx s.workers with
  | none =>
    { s with workerQueue := s.workerQueue ++
        [({ movieId, chunkIndex, peerSources, taskId } : QueuedTask)] }
  | some i =>
    { s with workers :=
        s.workers.set i { busy := true,
                          currentTask := some { movieId, chunkIndex, taskId } } }

/-- One peer connection handed to startParallelStream. -/
structure PeerConn where
  id : String
  availableChunks : List ℕ
deriving DecidableEq, Repr

/-- peerSources insertion: create the chunk entry when absent, then push
the peer id. -/
def addPeerSource (chunkIndex : ℕ) (peerId : String) :
    List (ℕ × List String) → List (ℕ × List String)
  | [] => [(chunkIndex, [peerId])]
  | (k, ps) :: rest =>
    if k = chunkIndex then (k, ps ++ [peerId]) :: rest
    else (k, ps) :: addPeerSource chunkIndex peerId rest

/-- Download strategy of one stream. -/
structure DownloadStrategy where
  priorityChunks : List ℕ
  backgroundChunks : List ℕ
  peerSources : List (ℕ × List String)
deriving DecidableEq, Repr

/-- createDownloadStrategy: the loop for (i = 0; i < min(5, totalChunks);
i++) pushes i to priorityChunks, the loop for (i = 5; i < totalChunks;
i++) pushes i to backgroundChunks (List.range' 5 (totalChunks - 5) is
exactly the indices 5, 6, ..., totalChunks - 1), and every peer
connection maps its available chunks into peerSources. -/
def createDownloadStrategy (totalChunks : ℕ) (peerConnections : List PeerConn) :
    DownloadStrategy :=
  { priorityChunks := List.range (min 5 totalChunks),
    backgroundChunks := List.range' 5 (totalChunks - 5),
    peerSources := peerConnections.foldl
      (fun m peer => peer.availableChunks.foldl
        (fun m ci => addPeerSource ci peer.id m) m) [] }

/-- Stats object returned by startParallelStream. -/
structure StreamStartStats where
  totalChunks : ℕ
  workersActive : ℕ
  priorityChunks : ℕ
  backgroundChunks : ℕ
deriving DecidableEq, Repr

/-- Return value of startParallelStream. -/
structure StreamStartResult where
  success : Bool
  stats : StreamStartStats
deriving DecidableEq, Repr

/-- startParallelStream: allocate the delivery buffer (totalChunks empty
slots) and the download queue for the movie, build the strategy, kick
off executeParallelDownloadsAsync without awaiting it, and return the
strategy summary immediately; the returned stats are computed before
any chunk download completes. -/
def startParallelStream (movieId : String) (totalChunks : ℕ)
    (peerConnections : List PeerConn) (s : EngineState) :
    EngineState × StreamStartResult :=
  let s1 := { s with
    streamBuffer := mapSet movieId (List.replicate totalChunks none) s.streamBuffer,
    downloadQueue := mapSet movieId [] s.downloadQueue }
  let strategy := createDownloadStrategy totalChunks peerConnections
  (s1,
   { success := true,
     stats := { totalChunks := totalChunks,
                workersActive := s.maxWorkers,
                priorityChunks := strategy.priorityChunks.length,
                backgroundChunks := strategy.backgroundChunks.length } })

/-- A JS value that is either a number or a string, as stored in the
completedPercentage field. -/
inductive StatsValue where
  | num (n : ℕ)
  | str (s : String)
deriving DecidableEq, Repr

/-- (availableChunks / totalChunks * 100).toFixed(1): the percentage in
tenths, rounded half up over exact rationals (the binary floating point
of the source is idealized as exact rational arithmetic), printed with
one decimal digit. -/
def toFixed1Pct (avail total : ℕ) : String :=
  let tenths : ℕ := (avail * 1000 * 2 + total) / (2 * total)
  toString (tenths / 10) ++ "." ++ toString (tenths % 10)

/-- Stats snapshot returned by getStreamingStats. -/
structure StreamingStats where
  movieId : String
  totalChunks : ℕ
  availableChunks : ℕ
  completedPercentage : StatsValue
  workersActive : ℕ
  totalWorkers : ℕ
  queueLength : ℕ

/-- getStreamingStats: with buffer = streamBuffer.get(movieId) or [],
totalChunks is the buffer length, availableChunks counts the non-null
slots, and completedPercentage is the one-decimal string when
totalChunks > 0 and the number 0 otherwise. -/
def getStreamingStats (movieId : String) (s : EngineState) : StreamingStats :=
  let buffer := (List.lookup movieId s.streamBuffer).getD []
  let totalChunks := buffer.length
  let availableChunks := (buffer.filter (fun c => c.isSome)).length
  { movieId := movieId,
    totalChunks := totalChunks,
    availableChunks := availableChunks,
    completedPercentage :=
      if 0 < totalChunks then .str (toFixed1Pct availableChunks totalChunks)
      else .num 0,
    workersActive := (s.workers.filter (fun w => w.busy)).length,
    totalWorkers := s.maxWorkers,
    queueLength := s.workerQueue.length }

/-- An engine state with the given workers, queue and delivery buffers
and nothing else pending: the state of an engine after construction and
some assignments, used to instantiate the theorems below on concrete
scheduler states. -/
def mkEngine (workers : List WorkerInfo) (queue : List QueuedTask)
    (buffers : List (String × List (Option ChunkBytes))) : EngineState :=
  { maxWorkers := workers.length,
    workers := workers,
    workerQueue := queue,
    streamBuffer := buffers,
    downloadQueue := [],
    pendingRespawns := [],
    resolvedTasks := [],
    rejectedTasks := [],
    events := [] }

/-- Concrete scheduler state: one worker busy on task 7 of movie A and
one queued task 8. -/
def demoBusyEngine : EngineState :=
  mkEngine
    [{ busy := true,
       currentTask := some { movieId := "A", chunkIndex := 0, taskId := 7 } }]
    [{ movieId := "A", chunkIndex := 1, peerSources := [], taskId := 8 }]
    []

/-- Concrete scheduler state: one worker busy on task 9 of movie B,
nothing queued. -/
def demoCrashEngine : EngineState :=
  mkEngine
    [{ busy := true,
       currentTask := some { movieId := "B", chunkIndex := 2, taskId := 9 } }]
    []
    []

/-- Concrete scheduler state: no workers, a two-slot delivery buffer for
movie A whose first slot holds the bytes of chunk 0. -/
def demoBufferEngine : EngineState :=
  mkEngine [] [] [("A", [some (mkChunkData 0), none])]

/- ===================== Helper lemmas ===================== -/

/-- A map whose function fixes every element of the list is the
identity. -/
theorem map_eq_self_of {α : Type} {f : α → α} :
    ∀ {l : List α}, (∀ x ∈ l, f x = x) → l.map f = l
  | [], _ => rfl
  | a :: l, h => by
    rw [List.map_cons, h a (List.mem_cons_self a l),
      map_eq_self_of (fun x hx => h x (List.mem_cons_of_mem a hx))]

/-- Setting an index to the value it already holds leaves the list
unchanged. -/
theorem set_self_of_get? {α : Type} :
    ∀ (l : List α) (i : ℕ) (x : α), l.get? i = some x → l.set i x = l
  | [], _, _, h => by simp at h
  | a :: l, 0, x, h => by
    simp at h
    simp [List.set, h]
  | a :: l, i + 1, x, h => by
    simp only [List.get?] at h
    simp [List.set, set_self_of_get? l i x h]

/-- mapSet with the value the key already maps to is the identity. -/
theorem mapSet_lookup_self {β : Type} :
    ∀ (l : List (String × β)) (k : String) (v : β),
      List.lookup k l = some v → mapSet k v l = l
  | [], k, v, h => by simp [List.lookup] at h
  | (k', w) :: rest, k, v, h => by
    by_cases hk : k' = k
    · subst hk
      simp [List.lookup] at h
      simp [mapSet, h]
    · have hne : (k == k') = false := by
        simp
        exact fun he => hk he.symm
      simp only [List.lookup, hne] at h
      simp only [mapSet, if_neg hk]
      rw [mapSet_lookup_self rest k v h]

/-- The element written by set is a member of the result when the index
is in range. -/
theorem mem_set_of_lt {α : Type} (l : List α) (i : ℕ) (a : α)
    (h : i < l.length) : a ∈ l.set i a := by
  have hlt : i < (l.set i a).length := by simpa using h
  have hget : (l.set i a)[i] = a := List.getElem_set_self hlt
  have hmem : (l.set i a)[i] ∈ l.set i a := List.getElem_mem hlt
  rwa [hget] at hmem

/-- A successful findAvailableIdx returns an in-range index of a
non-busy worker. -/
theorem findAvailableIdx_some_spec :
    ∀ {l : List WorkerInfo} {i : ℕ}, findAvailableIdx l = some i →
      ∃ h : i < l.length, (l.get ⟨i, h⟩).busy = false
  | [], i, h => by simp [findAvailableIdx] at h
  | w :: ws, i, h => by
    cases hb : w.busy with
    | false =>
      simp [findAvailableIdx, hb] at h
      subst h
      exact ⟨by simp, by simpa using hb⟩
    | true =>
      simp [findAvailableIdx, hb] at h
      obtain ⟨j, hj, rfl⟩ := h
      obtain ⟨hlt, hbusy⟩ := findAvailableIdx_some_spec hj
      exact ⟨by simpa using Nat.succ_lt_succ hlt, by simpa using hbusy⟩

/-- When some worker in the list is idle, findAvailableIdx succeeds. -/
theorem findAvailableIdx_isSome :
    ∀ {l : List WorkerInfo}, (∃ w ∈ l, w.busy = false) →
      (findAvailableIdx l).isSome = true
  | [], h => by simp at h
  | x :: xs, h => by
    obtain ⟨w, hw, hbusy⟩ := h
    cases hx : x.busy with
    | false => simp [findAvailableIdx, hx]
    | true =>
      have hwmem : w ∈ xs := by
        rcases List.mem_cons.mp hw with rfl | hmem
        · rw [hbusy] at hx
          exact absurd hx (by simp)
        · exact hmem
      have hrec := findAvailableIdx_isSome ⟨w, hwmem, hbusy⟩
      cases hfa : findAvailableIdx xs with
      | none => rw [hfa] at hrec; simp at hrec
      | some j => simp [findAvailableIdx, hx, hfa]

/-- storeChunkData only touches the stream buffer: workers unchanged. -/
theorem storeChunkData_workers (m : String) (c : ℕ) (d : ChunkBytes)
    (s : EngineState) : (storeChunkData m c d s).workers = s.workers := by
  unfold storeChunkData
  cases List.lookup m s.streamBuffer <;> rfl

/-- storeChunkData only touches the stream buffer: queue unchanged. -/
theorem storeChunkData_workerQueue (m : String) (c : ℕ) (d : ChunkBytes)
    (s : EngineState) : (storeChunkData m c d s).workerQueue = s.workerQueue := by
  unfold storeChunkData
  cases List.lookup m s.streamBuffer <;> rfl

/-- When the queue is non-empty and an idle worker exists,
processWorkerQueue shifts the first queued task and assigns it to a
worker. -/
theorem processWorkerQueue_assigns (s : EngineState) (q : QueuedTask)
    (rest : List QueuedTask) (hq : s.workerQueue = q :: rest)
    (hidle : ∃ w ∈ s.workers, w.busy = false) :
    (processWorkerQueue s).workerQueue = rest ∧
    ∃ w ∈ (processWorkerQueue s).workers, w.busy = true ∧
      w.currentTask = some { movieId := q.movieId, chunkIndex := q.chunkIndex,
                             taskId := q.taskId } := by
  have hsome := findAvailableIdx_isSome hidle
  cases hfa : findAvailableIdx s.workers with
  | none => rw [hfa] at hsome; simp at hsome
  | some i =>
    obtain ⟨hlt, _⟩ := findAvailableIdx_some_spec hfa
    unfold processWorkerQueue
    rw [hq, hfa]
    refine ⟨rfl, ?_⟩
    exact ⟨_, mem_set_of_lt s.workers i _ hlt, rfl, rfl⟩

/-- The attemptExtraction loop when every attempt fails: the initial
attempt plus maxRetries retries, with backoff delays 1000, 2000 and
3000 ms. -/
theorem runAttempts_all_fail (af : ℕ → Bool) (h : ∀ n, af n = true) :
    runAttempts af maxRetries 0 =
      { attempts := 4, backoffDelays := [1000, 2000, 3000], succeeded := false } := by
  have e3 : runAttempts af 0 3 =
      { attempts := 1, backoffDelays := [], succeeded := false } := by
    simp [runAttempts, h 3, maxRetries]
  have e2 : runAttempts af 1 2 =
      { attempts := 2, backoffDelays := [3000], succeeded := false } := by
    rw [runAttempts]
    simp [h 2, maxRetries, e3]
  have e1 : runAttempts af 2 1 =
      { attempts := 3, backoffDelays := [2000, 3000], succeeded := false } := by
    rw [runAttempts]
    simp [h 1, maxRetries, e2]
  have e0 : runAttempts af 3 0 =
      { attempts := 4, backoffDelays := [1000, 2000, 3000], succeeded := false } := by
    rw [runAttempts]
    simp [h 0, maxRetries, e1]
  simpa [maxRetries] using e0

/- ===================== Claim theorems ===================== -/

/-- Claim C2: for every movie and every burst of simultaneous extract
requests, the size of the per-movie active-extractions set never
exceeds the cap of 3 in any reachable state; a caller may only add its
chunk index through the enter step, whose guard is the exit condition
of the cap-wait loop. -/
theorem extraction_cap_invariant {s : Finset ℕ} (h : ExtractionReachable s) :
    s.card ≤ maxConcurrentExtractions := by
  induction h with
  | init => simp [maxConcurrentExtractions]
  | step hr hst ih =>
    rename_i u t
    cases hst with
    | enter c hc =>
      have hle := Finset.card_insert_le c u
      omega
    | leave c =>
      have hle := Finset.card_erase_le (s := u) (a := c)
      omega

/-- Witness for C2: the state with two active extractions is reachable
and satisfies the cap bound. -/
theorem extraction_cap_invariant_witness :
    (insert 0 (insert 1 (∅ : Finset ℕ))).card ≤ maxConcurrentExtractions :=
  extraction_cap_invariant
    (ExtractionReachable.step
      (ExtractionReachable.step ExtractionReachable.init
        (ExtractionStep.enter 1 ∅ (by decide)))
      (ExtractionStep.enter 0 (insert 1 ∅) (by decide)))

/-- Counterexample for C3: with every attempt failing, the pipeline
performs 4 read attempts (the initial attempt plus 3 retries), not 3 as
the claim states. -/
theorem retry_attempt_count_claim_false :
    (extractChunkFromTorrent chunkSizeBytes 0 (fun _ => true)).attempts = 4 ∧
    (extractChunkFromTorrent chunkSizeBytes 0 (fun _ => true)).attempts ≠ 3 := by
  decide

/-- Claim C3 (amended): for every in-range extraction whose every
attempt encounters a per-attempt timeout, a zero-byte result or a
stream error, the pipeline makes exactly 4 attempts (the initial
attempt plus 3 retries), with backoff delays of 1 s, 2 s, 3 s before
the respective retries and a 15-second timeout applied to each attempt,
and then fails terminally with an error marked retryable. -/
theorem retry_exhaustion_behavior (fileLength chunkIndex : ℕ) (af : ℕ → Bool)
    (hin : chunkIndex * chunkSizeBytes < fileLength) (hfail : ∀ n, af n = true) :
    (extractChunkFromTorrent fileLength chunkIndex af).attempts = 4 ∧
    (extractChunkFromTorrent fileLength chunkIndex af).backoffDelays =
      [1000, 2000, 3000] ∧
    (extractChunkFromTorrent fileLength chunkIndex af).outcome =
      ExtractOutcome.exhaustedRetryable ∧
    errorRetryFlag (extractChunkFromTorrent fileLength chunkIndex af).outcome =
      some true ∧
    perAttemptTimeoutMs = 15000 := by
  have hn : ¬ fileLength ≤ chunkIndex * chunkSizeBytes := by omega
  have hrun := runAttempts_all_fail af hfail
  simp [extractChunkFromTorrent, hn, hrun, errorRetryFlag, perAttemptTimeoutMs]

/-- Witness for C3 (amended), at a one-chunk file with all attempts
failing. -/
theorem retry_exhaustion_behavior_witness :
    (extractChunkFromTorrent chunkSizeBytes 0 (fun _ => true)).attempts = 4 ∧
    (extractChunkFromTorrent chunkSizeBytes 0 (fun _ => true)).backoffDelays =
      [1000, 2000, 3000] ∧
    (extractChunkFromTorrent chunkSizeBytes 0 (fun _ => true)).outcome =
      ExtractOutcome.exhaustedRetryable ∧
    errorRetryFlag (extractChunkFromTorrent chunkSizeBytes 0 (fun _ => true)).outcome =
      some true ∧
    perAttemptTimeoutMs = 15000 :=
  retry_exhaustion_behavior chunkSizeBytes 0 (fun _ => true) (by decide)
    (fun _ => rfl)

/-- Claim C4: the chunk byte offset is chunkIndex * chunkSize with
chunkSize = 2 MB, the read length is min(chunkSize, fileLength -
offset), and an offset at or past the file length fails out of bounds
with no read attempt and no retry. -/
theorem chunk_bounds_behavior (fileLength chunkIndex : ℕ) (af : ℕ → Bool) :
    (fileLength ≤ chunkIndex * chunkSizeBytes →
      extractChunkFromTorrent fileLength chunkIndex af =
        { readParams := none, attempts := 0, backoffDelays := [],
          outcome := ExtractOutcome.outOfBounds }) ∧
    (chunkIndex * chunkSizeBytes < fileLength →
      (extractChunkFromTorrent fileLength chunkIndex af).readParams =
        some (chunkIndex * chunkSizeBytes,
          min chunkSizeBytes (fileLength - chunkIndex * chunkSizeBytes))) := by
  constructor
  · intro h
    simp [extractChunkFromTorrent, h]
  · intro h
    have hn : ¬ fileLength ≤ chunkIndex * chunkSizeBytes := by omega
    simp [extractChunkFromTorrent, hn]

/-- Witness for C4: chunk 50 of a 40 MB file is out of bounds with no
read and no retry, while chunk 0 of the same file reads offset 0 with
the full 2 MB length. -/
theorem chunk_bounds_behavior_witness :
    extractChunkFromTorrent 41943040 50 (fun _ => false) =
      { readParams := none, attempts := 0, backoffDelays := [],
        outcome := ExtractOutcome.outOfBounds } ∧
    (extractChunkFromTorrent 41943040 0 (fun _ => false)).readParams =
      some (0, 2097152) := by
  constructor
  · exact (chunk_bounds_behavior 41943040 50 (fun _ => false)).1 (by decide)
  · have h := (chunk_bounds_behavior 41943040 0 (fun _ => false)).2 (by decide)
    rw [h]
    decide

/-- Claim C8: after cleanup_peer the claimant appears in no claim set,
claim sets left empty are deleted, movies left without chunk entries
are deleted, and on a registry that does not mention the claimant the
operation is a no-op (under the data-model invariant that a claimant
appears at most once per claim set). -/
theorem remove_claimant_spec (reg : Registry) (c : String)
    (hinv : NodupPeers reg) :
    (∀ me ∈ cleanup_peer c reg, ∀ ce ∈ me.2, c ∉ ce.2 ∧ ce.2 ≠ []) ∧
    (∀ me ∈ cleanup_peer c reg, me.2 ≠ []) ∧
    (NoClaim c reg → Pruned reg → cleanup_peer c reg = reg) := by
  refine ⟨?_, ?_, ?_⟩
  · intro me hme ce hce
    unfold cleanup_peer at hme
    rw [List.mem_filter] at hme
    obtain ⟨hmem, _⟩ := hme
    rw [List.mem_map] at hmem
    obtain ⟨me₀, hme₀, rfl⟩ := hmem
    rw [List.mem_filter] at hce
    obtain ⟨hcm, hcne⟩ := hce
    rw [List.mem_map] at hcm
    obtain ⟨ce₀, hce₀, rfl⟩ := hcm
    refine ⟨?_, ?_⟩
    · have hnd := hinv me₀ hme₀ ce₀ hce₀
      intro hc
      have h1 := List.count_erase_self c ce₀.2
      have h2 : 1 ≤ (ce₀.2.erase c).count c := List.count_pos_iff.mpr hc
      have h3 : ce₀.2.count c ≤ 1 := List.nodup_iff_count_le_one.mp hnd c
      omega
    · intro hemp
      rw [hemp] at hcne
      simp at hcne
  · intro me hme
    unfold cleanup_peer at hme
    rw [List.mem_filter] at hme
    intro hemp
    rw [hemp] at hme
    simpa using hme.2
  · intro hno hpr
    unfold cleanup_peer
    have hm : reg.map (fun me =>
        (me.1, (me.2.map fun ce => (ce.1, ce.2.erase c)).filter
          (fun ce => !ce.2.isEmpty))) = reg := by
      apply map_eq_self_of
      intro me hme
      have hmap : me.2.map (fun ce => (ce.1, ce.2.erase c)) = me.2 := by
        apply map_eq_self_of
        intro ce hce
        have he : ce.2.erase c = ce.2 := List.erase_of_not_mem (hno me hme ce hce)
        rw [he]
      rw [hmap]
      have hf : me.2.filter (fun ce => !ce.2.isEmpty) = me.2 := by
        apply List.filter_eq_self.mpr
        intro ce hce
        simpa using hpr.1 me hme ce hce
      rw [hf]
    rw [hm]
    apply List.filter_eq_self.mpr
    intro me hme
    simpa using hpr.2 me hme

/-- Witness for C8, at a concrete three-entry registry. -/
theorem remove_claimant_spec_witness :
    (∀ me ∈ cleanup_peer "p" [("A", [(0, ["p", "q"]), (1, ["p"])]), ("B", [(2, ["p"])])],
      ∀ ce ∈ me.2, "p" ∉ ce.2 ∧ ce.2 ≠ []) ∧
    (∀ me ∈ cleanup_peer "p" [("A", [(0, ["p", "q"]), (1, ["p"])]), ("B", [(2, ["p"])])],
      me.2 ≠ []) ∧
    (NoClaim "p" [("A", [(0, ["p", "q"]), (1, ["p"])]), ("B", [(2, ["p"])])] →
     Pruned [("A", [(0, ["p", "q"]), (1, ["p"])]), ("B", [(2, ["p"])])] →
     cleanup_peer "p" [("A", [(0, ["p", "q"]), (1, ["p"])]), ("B", [(2, ["p"])])] =
       [("A", [(0, ["p", "q"]), (1, ["p"])]), ("B", [(2, ["p"])])]) :=
  remove_claimant_spec [("A", [(0, ["p", "q"]), (1, ["p"])]), ("B", [(2, ["p"])])]
    "p" (by decide)

/-- Counterexample for C1: when an extraction task for the key exists,
settles successfully, and the saved chunk file is then absent from
disk, the caller falls through and starts a second underlying
extraction, so the claim that no second extraction is ever started is
false. -/
theorem extract_dedup_claim_false :
    ¬ (∀ env : ExtractEnv, env.taskExists = true →
        ExtractAction.startExtraction ∉ extractChunkWithConcurrencyControl env) := by
  intro h
  have hnot := h { taskExists := true, awaitedOk := true, cachedFileExists := false,
                   capBusyRounds := 0 } rfl
  exact hnot (by decide)

/-- Claim C1 (amended): when an extraction task for the key exists, the
caller first awaits its result; the awaited rejection propagates with
no second extraction, a successful await with the chunk file present
serves the cache with no second extraction, and a second underlying
extraction is started exactly when the await succeeded but the chunk
file is absent (after the existing task settled, never concurrently
with it). -/
theorem extract_dedup_await_then_refetch (env : ExtractEnv)
    (h : env.taskExists = true) :
    (extractChunkWithConcurrencyControl env).head? =
      some ExtractAction.awaitExisting ∧
    (ExtractAction.startExtraction ∈ extractChunkWithConcurrencyControl env ↔
      (env.awaitedOk = true ∧ env.cachedFileExists = false)) := by
  obtain ⟨te, ok, fe, n⟩ := env
  simp only at h
  subst h
  cases ok <;> cases fe <;>
    simp [extractChunkWithConcurrencyControl, proceedToExtraction,
      List.mem_append, List.mem_replicate]

/-- Witness for C1 (amended), at an environment with an existing task
that succeeds and a present cache file. -/
theorem extract_dedup_await_then_refetch_witness :
    (extractChunkWithConcurrencyControl
        { taskExists := true, awaitedOk := true, cachedFileExists := true,
          capBusyRounds := 0 }).head? = some ExtractAction.awaitExisting ∧
    (ExtractAction.startExtraction ∈ extractChunkWithConcurrencyControl
        { taskExists := true, awaitedOk := true, cachedFileExists := true,
          capBusyRounds := 0 } ↔ (true = true ∧ true = false)) :=
  extract_dedup_await_then_refetch
    { taskExists := true, awaitedOk := true, cachedFileExists := true,
      capBusyRounds := 0 } rfl

/-- Claim C7: startParallelStream returns a summary whose priority chunk
count is min(5, totalChunks) and whose background chunk count is
totalChunks - min(5, totalChunks), and the strategy partitions the
chunk indices exactly into the first min(5, totalChunks) indices
followed by the remaining ones. -/
theorem parallel_stream_strategy (movieId : String) (totalChunks : ℕ)
    (peers : List PeerConn) (s : EngineState) :
    (startParallelStream movieId totalChunks peers s).2.stats.priorityChunks =
      min 5 totalChunks ∧
    (startParallelStream movieId totalChunks peers s).2.stats.backgroundChunks =
      totalChunks - min 5 totalChunks ∧
    (createDownloadStrategy totalChunks peers).priorityChunks ++
      (createDownloadStrategy totalChunks peers).backgroundChunks =
      List.range totalChunks := by
  refine ⟨?_, ?_, ?_⟩
  · simp [startParallelStream, createDownloadStrategy]
  · simp [startParallelStream, createDownloadStrategy]
    omega
  · simp only [createDownloadStrategy]
    rcases le_or_lt 5 totalChunks with h5 | h5
    · rw [Nat.min_eq_left h5]
      rw [List.range_eq_range' totalChunks, List.range_eq_range' 5]
      have happ := List.range'_append 0 5 (totalChunks - 5) 1
      simp at happ
      rw [happ]
      congr 1
      omega
    · have h0 : totalChunks - 5 = 0 := by omega
      rw [Nat.min_eq_right (by omega), h0]
      simp

/-- Claim C9: delivery-buffer writes are idempotent: when the slot of a
(movie, chunkIndex) pair already holds the bytes a completion produced
for that pair, a later completion for the same pair writes identical
bytes (the worker fill pattern depends only on the chunk index), and
storing it leaves the whole engine state unchanged. -/
theorem buffer_write_idempotent (s : EngineState) (movieId : String)
    (chunkIndex : ℕ) (buf : List (Option ChunkBytes)) (ps ps' : List String)
    (hbuf : List.lookup movieId s.streamBuffer = some buf)
    (hslot : buf.get? chunkIndex =
      some (some (downloadAndProcessChunk movieId chunkIndex ps))) :
    storeChunkData movieId chunkIndex
      (downloadAndProcessChunk movieId chunkIndex ps') s = s := by
  have hset : buf.set chunkIndex
      (some (downloadAndProcessChunk movieId chunkIndex ps')) = buf :=
    set_self_of_get? buf chunkIndex _ hslot
  simp only [storeChunkData, hbuf]
  rw [hset]
  rw [mapSet_lookup_self s.streamBuffer movieId buf hbuf]

/-- Witness for C9, storing a duplicate completion for chunk 0 of movie
A into a buffer that already holds those bytes. -/
theorem buffer_write_idempotent_witness :
    storeChunkData "A" 0 (downloadAndProcessChunk "A" 0 ["q"])
      demoBufferEngine = demoBufferEngine :=
  buffer_write_idempotent demoBufferEngine "A" 0
    [some (mkChunkData 0), none] [] ["q"] rfl rfl

/-- Claim C10: a movie without a stream buffer yields totalChunks = 0,
availableChunks = 0 and the number 0 (not a string) as
completedPercentage; a movie with a non-empty buffer yields the
one-decimal percentage string and availableChunks equal to the count of
non-null slots. -/
theorem streaming_stats_spec (s : EngineState) (movieId : String) :
    (List.lookup movieId s.streamBuffer = none →
      (getStreamingStats movieId s).totalChunks = 0 ∧
      (getStreamingStats movieId s).availableChunks = 0 ∧
      (getStreamingStats movieId s).completedPercentage = StatsValue.num 0) ∧
    (∀ buf, List.lookup movieId s.streamBuffer = some buf → buf ≠ [] →
      (getStreamingStats movieId s).completedPercentage =
        StatsValue.str (toFixed1Pct (buf.countP (fun c => c.isSome)) buf.length) ∧
      (getStreamingStats movieId s).availableChunks =
        buf.countP (fun c => c.isSome)) := by
  constructor
  · intro h
    simp [getStreamingStats, h]
  · intro buf h hne
    have hlen : 0 < buf.length := List.length_pos.mpr hne
    constructor
    · simp [getStreamingStats, h, hlen, List.countP_eq_length_filter]
    · simp [getStreamingStats, h, List.countP_eq_length_filter]

/-- Witness for C10: a movie without a buffer and a movie with a
half-filled two-slot buffer. -/
theorem streaming_stats_spec_witness :
    ((getStreamingStats "Z" demoBufferEngine).totalChunks = 0 ∧
     (getStreamingStats "Z" demoBufferEngine).availableChunks = 0 ∧
     (getStreamingStats "Z" demoBufferEngine).completedPercentage =
       StatsValue.num 0) ∧
    ((getStreamingStats "A" demoBufferEngine).completedPercentage =
       StatsValue.str (toFixed1Pct
         ([some (mkChunkData 0), none].countP (fun c => c.isSome))
         ([some (mkChunkData 0), none] : List (Option ChunkBytes)).length) ∧
     (getStreamingStats "A" demoBufferEngine).availableChunks =
       [some (mkChunkData 0), none].countP (fun c => c.isSome)) :=
  ⟨(streaming_stats_spec demoBufferEngine "Z").1 rfl,
   (streaming_stats_spec demoBufferEngine "A").2
     [some (mkChunkData 0), none] rfl (by simp)⟩

/-- An index with a some getElem? is in range. -/
theorem lt_length_of_getElem?_eq_some {α : Type} {l : List α} {i : ℕ} {a : α}
    (h : l[i]? = some a) : i < l.length := by
  by_contra hb
  push_neg at hb
  rw [List.getElem?_eq_none hb] at h
  exact Option.noConfusion h

/-- Counterexample for C5: the crash handling (restartWorker followed
by the respawn timer) of a worker busy on task 9 rejects nothing: the
rejected-task list stays empty even though the slot is replaced by a
fresh idle worker, so the claim that the in-flight task is rejected by
the crash recovery is false. -/
theorem worker_crash_reject_claim_false :
    (fireRespawn 0 (restartWorker 0 demoCrashEngine)).rejectedTasks = [] ∧
    (fireRespawn 0 (restartWorker 0 demoCrashEngine)).workers =
      [{ busy := false, currentTask := none }] := by
  constructor <;> rfl

/-- Claim C5 (amended): a worker that errors while busy is replaced
after a 1000 ms delay by a fresh idle worker in the same pool slot, but
the crash handling rejects nothing and leaves the captured worker
record (and its current task) untouched; the task is rejected only when
the separate 30-second task timeout fires on that record. -/
theorem worker_crash_respawn_behavior (s : EngineState) (workerId : ℕ)
    (t : CurrentTask)
    (h : s.workers[workerId]? = some { busy := true, currentTask := some t }) :
    (restartWorker workerId s).pendingRespawns =
      s.pendingRespawns ++ [(1000, workerId)] ∧
    (restartWorker workerId s).workers = s.workers ∧
    (restartWorker workerId s).rejectedTasks = s.rejectedTasks ∧
    (fireRespawn workerId (restartWorker workerId s)).workers[workerId]? =
      some { busy := false, currentTask := none } ∧
    (handleWorkerTimeoutOn { busy := true, currentTask := some t }
        (restartWorker workerId s)).2.rejectedTasks =
      s.rejectedTasks ++ [(t.taskId, "Worker timeout")] := by
  have hlt := lt_length_of_getElem?_eq_some h
  refine ⟨rfl, rfl, rfl, ?_, rfl⟩
  simp [fireRespawn, createWorker, restartWorker, List.getElem?_set_self, hlt]

/-- Witness for C5 (amended), at the concrete one-worker state busy on
task 9. -/
theorem worker_crash_respawn_behavior_witness :
    (restartWorker 0 demoCrashEngine).pendingRespawns =
      demoCrashEngine.pendingRespawns ++ [(1000, 0)] ∧
    (restartWorker 0 demoCrashEngine).workers = demoCrashEngine.workers ∧
    (restartWorker 0 demoCrashEngine).rejectedTasks =
      demoCrashEngine.rejectedTasks ∧
    (fireRespawn 0 (restartWorker 0 demoCrashEngine)).workers[0]? =
      some { busy := false, currentTask := none } ∧
    (handleWorkerTimeoutOn
        { busy := true,
          currentTask := some { movieId := "B", chunkIndex := 2, taskId := 9 } }
        (restartWorker 0 demoCrashEngine)).2.rejectedTasks =
      demoCrashEngine.rejectedTasks ++ [(9, "Worker timeout")] :=
  worker_crash_respawn_behavior demoCrashEngine 0
    { movieId := "B", chunkIndex := 2, taskId := 9 } rfl

/-- Counterexample for C6: the forced 30-second timeout frees the busy
worker but pulls nothing from the queue, so after the busy-to-idle
transition an idle worker coexists with a non-empty task queue,
refuting the claim. -/
theorem idle_worker_queue_claim_false :
    (handleWorkerTimeout 0 demoBusyEngine).workerQueue =
      [{ movieId := "A", chunkIndex := 1, peerSources := [], taskId := 8 }] ∧
    (handleWorkerTimeout 0 demoBusyEngine).workers =
      [{ busy := false, currentTask := none }] := by
  constructor <;> rfl

/-- Claim C6 (amended): when a busy worker reports a message and the
queue is non-empty, the scheduler frees the worker and immediately
assigns the first queued task to an available worker; the forced
timeout, by contrast, frees the worker but leaves the queue untouched,
so a worker freed by timeout can stay idle while the queue is
non-empty. -/
theorem queue_pull_behavior (s : EngineState) (workerId : ℕ) (wi : WorkerInfo)
    (t : CurrentTask) (msg : WorkerMsg) (q : QueuedTask) (rest : List QueuedTask)
    (hw : s.workers[workerId]? = some wi) (ht : wi.currentTask = some t)
    (hq : s.workerQueue = q :: rest) :
    (handleWorkerMessage workerId msg s).workerQueue = rest ∧
    (∃ w ∈ (handleWorkerMessage workerId msg s).workers, w.busy = true ∧
      w.currentTask = some { movieId := q.movieId, chunkIndex := q.chunkIndex,
                             taskId := q.taskId }) ∧
    (handleWorkerTimeout workerId s).workerQueue = s.workerQueue := by
  have hlt := lt_length_of_getElem?_eq_some hw
  have htimeout : (handleWorkerTimeout workerId s).workerQueue = s.workerQueue := by
    simp only [handleWorkerTimeout, hw, handleWorkerTimeoutOn, ht]
  have hmain : (handleWorkerMessage workerId msg s).workerQueue = rest ∧
      (∃ w ∈ (handleWorkerMessage workerId msg s).workers, w.busy = true ∧
        w.currentTask = some { movieId := q.movieId, chunkIndex := q.chunkIndex,
                               taskId := q.taskId }) := by
    cases msg with
    | chunkDownloaded success movieId chunkIndex data err =>
      cases success with
      | true =>
        simp only [handleWorkerMessage, hw, ht]
        apply processWorkerQueue_assigns
        · simp [storeChunkData_workerQueue, hq]
        · exact ⟨{ busy := false, currentTask := none },
            mem_set_of_lt _ workerId _ (by simpa [storeChunkData_workers] using hlt),
            rfl⟩
      | false =>
        simp only [handleWorkerMessage, hw, ht]
        apply processWorkerQueue_assigns
        · simpa using hq
        · exact ⟨{ busy := false, currentTask := none },
            mem_set_of_lt _ workerId _ (by simpa using hlt), rfl⟩
    | progress movieId chunkIndex p =>
      simp only [handleWorkerMessage, hw, ht]
      apply processWorkerQueue_assigns
      · simpa using hq
      · exact ⟨{ busy := false, currentTask := none },
          mem_set_of_lt _ workerId _ (by simpa using hlt), rfl⟩
    | error err =>
      simp only [handleWorkerMessage, hw, ht]
      apply processWorkerQueue_assigns
      · simpa using hq
      · exact ⟨{ busy := false, currentTask := none },
          mem_set_of_lt _ workerId _ (by simpa using hlt), rfl⟩
  exact ⟨hmain.1, hmain.2, htimeout⟩

/-- Witness for C6 (amended), at the concrete one-worker state with one
queued task, on an error message. -/
theorem queue_pull_behavior_witness :
    (handleWorkerMessage 0 (WorkerMsg.error "boom") demoBusyEngine).workerQueue =
      [] ∧
    (∃ w ∈ (handleWorkerMessage 0 (WorkerMsg.error "boom") demoBusyEngine).workers,
      w.busy = true ∧
      w.currentTask = some { movieId := "A", chunkIndex := 1, taskId := 8 }) ∧
    (handleWorkerTimeout 0 demoBusyEngine).workerQueue =
      demoBusyEngine.workerQueue :=
  queue_pull_behavior demoBusyEngine 0
    { busy := true,
      currentTask := some { movieId := "A", chunkIndex := 0, taskId := 7 } }
    { movieId := "A", chunkIndex := 0, taskId := 7 }
    (WorkerMsg.error "boom")
    { movieId := "A", chunkIndex := 1, peerSources := [], taskId := 8 }
    [] rfl rfl rfl
